import Mathlib

set_option maxRecDepth 8192

/- The Batteries rational-number operations are marked irreducible, which
   only hides them from unfolding; evaluation of the embedding on concrete
   inputs needs them transparent again. -/
attribute [local semireducible] Rat.add Rat.mul Rat.inv Rat.sub
  Rat.ofScientific

/- Shallow embedding of the PolyArt low-poly generator
   (src/services/lowpoly.ts).  JavaScript double arithmetic is modelled as
   exact rational arithmetic.  The runtime library functions the code calls
   (Math.sqrt, Math.cos, Math.sin, Math.PI, the d3 rgb/lab conversions, the
   d3 Delaunay triangulator and canvas resampling) are external
   collaborators of the repository and enter the embedding as explicit
   function parameters; concrete instantiations used below agree with the
   IEEE values at every argument at which they are actually evaluated. -/

/- Kernel-computable integer square root: a linear upward scan with enough
   fuel to reach the root (the library integer square root is defined by
   well-founded recursion and does not evaluate inside proofs).  natSqrt_le and
   natSqrt_lt below characterise it as the floor of the real square
   root. -/
def sqrtGo (n : ℕ) : ℕ → ℕ → ℕ
  | 0, k => k
  | fuel + 1, k => if (k + 1) * (k + 1) ≤ n then sqrtGo n fuel (k + 1) else k

def natSqrt (n : ℕ) : ℕ := sqrtGo n n 0

/- Math.round: floor(q + 1/2), rounding halves toward positive infinity. -/
def jsRound (q : ℚ) : ℤ := ⌊q + 1 / 2⌋

/- ECMAScript ToUint8Clamp, the conversion applied when storing a number
   into a Uint8ClampedArray: round to nearest, halves to even, then the
   clamp to [0, 255] (clamping before or after this rounding agrees). -/
def roundHalfEven (q : ℚ) : ℤ :=
  if q - ⌊q⌋ < 1 / 2 then ⌊q⌋
  else if (1 : ℚ) / 2 < q - ⌊q⌋ then ⌊q⌋ + 1
  else if ⌊q⌋ % 2 = 0 then ⌊q⌋ else ⌊q⌋ + 1

def u8Store (q : ℚ) : ℕ := (max 0 (min 255 (roundHalfEven q))).toNat

/- Round-to-nearest of the real square root of a natural number.  The
   square root of a natural number is never a half-integer, so no tie
   breaking is needed: round(sqrt n) = k+1 iff n > k^2 + k. -/
def roundSqrtNat (n : ℕ) : ℕ :=
  let k := natSqrt n
  if k * k + k < n then k + 1 else k

/- Round-half-to-even of t / sqrt M for naturals t and M with 0 < M.
   k = floor(t / sqrt M) is characterised by k^2 * M <= t^2 < (k+1)^2 * M,
   and t / sqrt M is above k + 1/2 iff 4 t^2 > (2k+1)^2 M. -/
def normHalfEven (t M : ℕ) : ℕ :=
  let k := natSqrt (t * t / M)
  if (2 * k + 1) ^ 2 * M < 4 * (t * t) then k + 1
  else if 4 * (t * t) < (2 * k + 1) ^ 2 * M then k
  else if k % 2 = 0 then k else k + 1

/- Math.ceil(Math.sqrt m / 2) for a natural m; for m > 0 this is the least
   k with m <= 4 * k^2 (see ceilHalfSqrt_le and ceilHalfSqrt_lt below). -/
def ceilHalfSqrt (m : ℕ) : ℕ :=
  if m = 0 then 0 else natSqrt (m - 1) / 2 + 1

/- A triangle as the d3 trianglePolygons collaborator hands it over:
   three (x, y) vertices. -/
abbrev Tri := (ℚ × ℚ) × (ℚ × ℚ) × (ℚ × ℚ)

/- ImageData: width, height, and the row-major RGBA byte array, modelled
   as a total function from flat indices to byte values. -/
structure PixelBuffer where
  width : ℕ
  height : ℕ
  data : ℕ → ℕ

inductive SamplerE where
  | grid
  | poisson
  | edgeAware
deriving DecidableEq

inductive ColorSpaceE where
  | rgb
  | lab
deriving DecidableEq

/- The Settings record (src/types.ts); the two presentation-only booleans
   previewOutline and showPointIds never reach the generator and are
   omitted.  points is an integer so that non-positive target counts can
   be discussed. -/
structure SettingsE where
  maxSize : ℕ
  points : ℤ
  sampler : SamplerE
  seed : ℤ
  edgeWeight : ℚ
  colorSpace : ColorSpaceE
  withNeighbors : Bool

structure TriangleE where
  id : ℕ
  vertices : Tri
  centroid : ℚ × ℚ
  area_px : ℚ
  avg_color : ℚ × ℚ × ℚ
  neighbors : List ℕ
deriving DecidableEq

structure LowPolyOutputE where
  version : String
  imageWidth : ℤ
  imageHeight : ℤ
  source : String
  paramsSampler : SamplerE
  paramsPoints : ℤ
  paramsSeed : ℤ
  paramsColorSpace : ColorSpaceE
  triangles : List TriangleE

/- getScaledImageData, dimension computation (lines 116-135).  The pixel
   resampling itself is done by the canvas collaborator; only the width
   and height arithmetic is repository code. -/
def scaledDims (w h maxSize : ℕ) : ℤ × ℤ :=
  if maxSize < w ∨ maxSize < h then
    if h < w then
      ((maxSize : ℤ), jsRound ((h : ℚ) * ((maxSize : ℚ) / (w : ℚ))))
    else
      (jsRound ((w : ℚ) * ((maxSize : ℚ) / (h : ℚ))), (maxSize : ℤ))
  else ((w : ℤ), (h : ℤ))

/- addBorderPoints (lines 139-148).  The four corners are pushed first;
   numBorderPoints is then computed from the LENGTH AFTER that push. -/
def borderEdgeLoop (w h : ℚ) (c : ℕ) : List (ℚ × ℚ) :=
  (List.range' 1 (c - 1)).flatMap fun i =>
    [((i : ℚ) / (c : ℚ) * w, 0), ((i : ℚ) / (c : ℚ) * w, h),
     (0, (i : ℚ) / (c : ℚ) * h), (w, (i : ℚ) / (c : ℚ) * h)]

def addBorderPoints (pts : List (ℚ × ℚ)) (w h : ℚ) : List (ℚ × ℚ) :=
  let pts1 := pts ++ [(0, 0), (w, 0), (0, h), (w, h)]
  pts1 ++ borderEdgeLoop w h (ceilHalfSqrt pts1.length)

/- sampleGrid (lines 150-168).  sqrtF is the Math.sqrt collaborator.  For
   numPoints <= 0 the JavaScript loop bounds are NaN (sqrt of a negative
   number, or ceil(0/0)), so no iteration runs and the result is empty;
   the explicit branch below mirrors that.  The guard on cols = 0 mirrors
   the fact that for positive inputs cols is positive; with cols = 0 the
   JavaScript loop bound ceil(n/0) = Infinity never terminates, which is
   unreachable for positive dimensions. -/
def sampleGrid (sqrtF : ℚ → ℚ) (w h : ℚ) (n : ℤ) (rand : ℕ → ℚ) :
    List (ℚ × ℚ) :=
  if n ≤ 0 then []
  else
    let ratio := w / h
    let cols : ℤ := ⌈sqrtF ((n : ℚ) * ratio)⌉
    let rows : ℤ := if cols = 0 then 0 else ⌈(n : ℚ) / (cols : ℚ)⌉
    let colSize := w / (cols : ℚ)
    let rowSize := h / (rows : ℚ)
    (List.range rows.toNat).flatMap fun i =>
      (List.range cols.toNat).map fun j =>
        let jitterX := (rand (2 * (i * cols.toNat + j)) - 1 / 2) * colSize
        let jitterY := (rand (2 * (i * cols.toNat + j) + 1) - 1 / 2) * rowSize
        (min w (max 0 ((j : ℚ) * colSize + colSize / 2 + jitterX)),
         min h (max 0 ((i : ℚ) * rowSize + rowSize / 2 + jitterY)))

/- samplePoisson (lines 170-235).  The JavaScript while loop carries the
   sparse grid array, its length, the active list and the random source;
   the state below threads exactly those (rc is the index of the next
   value drawn from the random stream).  The loop need not terminate, so
   it is fuelled: none models a run that has not finished within fuel
   iterations of the outer while loop. -/
structure PoissonState where
  grid : ℤ → Option (ℚ × ℚ)
  glen : ℤ
  active : List (ℚ × ℚ)
  rc : ℕ

/- The 5x5 neighbourhood scan (lines 204-216): cells outside
   [0, rows) x [0, cols) are skipped, and an occupied cell rejects the
   candidate when its point is closer than r. -/
def poissonOk (sqrtF : ℚ → ℚ) (r : ℚ) (cols rows : ℤ)
    (grid : ℤ → Option (ℚ × ℚ)) (col row : ℤ) (px py : ℚ) : Bool :=
  (List.range 5).all fun dyi =>
    (List.range 5).all fun dxi =>
      let nr := row + (dyi : ℤ) - 2
      let nc := col + (dxi : ℤ) - 2
      if 0 ≤ nr ∧ nr < rows ∧ 0 ≤ nc ∧ nc < cols then
        match grid (nr * cols + nc) with
        | some q =>
            decide (¬ (sqrtF ((q.1 - px) ^ 2 + (q.2 - py) ^ 2) < r))
        | none => true
      else true

/- The k candidate attempts from one active point (lines 192-224); the
   returned boolean is the found flag. -/
def poissonAttempts (sqrtF cosF sinF : ℚ → ℚ) (piQ w h r cw : ℚ)
    (cols rows : ℤ) (rand : ℕ → ℚ) (pos : ℚ × ℚ) :
    ℕ → PoissonState → PoissonState × Bool
  | 0, st => (st, false)
  | j + 1, st =>
      let a := 2 * piQ * rand st.rc
      let m := r * (1 + rand (st.rc + 1))
      let px := pos.1 + m * cosF a
      let py := pos.2 + m * sinF a
      let st1 : PoissonState :=
        { grid := st.grid, glen := st.glen, active := st.active,
          rc := st.rc + 2 }
      if px < 0 ∨ w ≤ px ∨ py < 0 ∨ h ≤ py then
        poissonAttempts sqrtF cosF sinF piQ w h r cw cols rows rand pos j st1
      else
        let col : ℤ := ⌊px / cw⌋
        let row : ℤ := ⌊py / cw⌋
        if poissonOk sqrtF r cols rows st1.grid col row px py then
          ({ grid := fun ix =>
               if ix = row * cols + col then some (px, py) else st1.grid ix,
             glen := max st1.glen (row * cols + col + 1),
             active := st1.active ++ [(px, py)],
             rc := st1.rc }, true)
        else
          poissonAttempts sqrtF cosF sinF piQ w h r cw cols rows rand pos j st1

def poissonLoop (sqrtF cosF sinF : ℚ → ℚ) (piQ w h r cw : ℚ)
    (cols rows : ℤ) (rand : ℕ → ℚ) :
    ℕ → PoissonState → Option PoissonState
  | 0, st => if st.active.isEmpty then some st else none
  | fuel + 1, st =>
      if st.active.isEmpty then some st
      else
        let ridx := (⌊rand st.rc * (st.active.length : ℚ)⌋).toNat
        let pos := st.active.getD ridx (0, 0)
        let st1 : PoissonState :=
          { grid := st.grid, glen := st.glen, active := st.active,
            rc := st.rc + 1 }
        let res := poissonAttempts sqrtF cosF sinF piQ w h r cw cols rows
          rand pos 30 st1
        if res.2 then
          poissonLoop sqrtF cosF sinF piQ w h r cw cols rows rand fuel res.1
        else
          poissonLoop sqrtF cosF sinF piQ w h r cw cols rows rand fuel
            { grid := res.1.grid, glen := res.1.glen,
              active := res.1.active.eraseIdx ridx, rc := res.1.rc }

def samplePoisson (sqrtF cosF sinF : ℚ → ℚ) (piQ : ℚ) (w h : ℚ) (n : ℤ)
    (rand : ℕ → ℚ) (fuel : ℕ) : Option (List (ℚ × ℚ)) :=
  let r := sqrtF (w * h / ((n : ℚ) * piQ)) * (3 / 2)
  let cw := r / sqrtF 2
  let cols : ℤ := ⌊w / cw⌋
  let rows : ℤ := ⌊h / cw⌋
  let initialX := rand 0 * w
  let initialY := rand 1 * h
  let i0 : ℤ := ⌊initialX / cw⌋
  let j0 : ℤ := ⌊initialY / cw⌋
  let st0 : PoissonState :=
    { grid := fun ix =>
        if ix = j0 * cols + i0 then some (initialX, initialY) else none,
      glen := j0 * cols + i0 + 1,
      active := [(initialX, initialY)],
      rc := 2 }
  (poissonLoop sqrtF cosF sinF piQ w h r cw cols rows rand fuel st0).map
    fun st => (List.range st.glen.toNat).filterMap fun i => st.grid (i : ℤ)

/- sampleEdgeAware (lines 237-254).  The loop runs while fewer than
   numPoints points are accepted and fewer than 10 * numPoints attempts
   were made; each iteration draws x, y and the acceptance test value, in
   that order.  The remaining-attempts counter is the recursion fuel. -/
def sampleEdgeAwareGo (w h : ℕ) (n : ℤ) (em : ℕ → ℕ) (ew : ℚ)
    (rand : ℕ → ℚ) : ℕ → ℕ → List (ℚ × ℚ) → List (ℚ × ℚ)
  | 0, _, acc => acc.reverse
  | fuel + 1, rc, acc =>
      if (acc.length : ℤ) < n then
        let x : ℤ := ⌊rand rc * (w : ℚ)⌋
        let y : ℤ := ⌊rand (rc + 1) * (h : ℚ)⌋
        let edgeValue : ℚ := (em ((y * (w : ℤ) + x).toNat) : ℚ) / 255
        let probability := (1 - ew) + ew * edgeValue
        if rand (rc + 2) < probability then
          sampleEdgeAwareGo w h n em ew rand fuel (rc + 3)
            (((x : ℚ), (y : ℚ)) :: acc)
        else
          sampleEdgeAwareGo w h n em ew rand fuel (rc + 3) acc
      else acc.reverse

def sampleEdgeAware (w h : ℕ) (n : ℤ) (em : ℕ → ℕ) (ew : ℚ)
    (rand : ℕ → ℚ) : List (ℚ × ℚ) :=
  sampleEdgeAwareGo w h n em ew rand (10 * n).toNat 0 []

/- createEdgeMap (lines 258-298).  Both the grayscale buffer and the edge
   map are Uint8ClampedArray, so every store rounds halves to even and
   clamps to [0, 255].  The decimal luminance weights are modelled
   exactly. -/
def grayAt (img : PixelBuffer) (i : ℕ) : ℕ :=
  u8Store (((299 * img.data (4 * i) + 587 * img.data (4 * i + 1)
    + 114 * img.data (4 * i + 2) : ℕ) : ℚ) / 1000)

/- Squared Sobel gradient magnitude at interior pixel (x, y); the two
   kernels are written out (sobelX = [-1 0 1; -2 0 2; -1 0 1] and
   sobelY = [-1 -2 -1; 0 0 0; 1 2 1]). -/
def magSqAt (img : PixelBuffer) (x y : ℕ) : ℕ :=
  let g : ℕ → ℕ → ℤ :=
    fun kx ky => (grayAt img ((y - 1 + ky) * img.width + (x - 1 + kx)) : ℤ)
  let gx : ℤ := -g 0 0 + g 2 0 - 2 * g 0 1 + 2 * g 2 1 - g 0 2 + g 2 2
  let gy : ℤ := -g 0 0 - 2 * g 1 0 - g 2 0 + g 0 2 + 2 * g 1 2 + g 2 2
  (gx ^ 2 + gy ^ 2).toNat

/- The value stored into the edge map before normalization: the magnitude
   sqrt(gx^2 + gy^2) pushed through the Uint8ClampedArray conversion.
   Border pixels (the one-pixel ring) are never written and stay 0. -/
def rawEdge (img : PixelBuffer) (i : ℕ) : ℕ :=
  let x := i % img.width
  let y := i / img.width
  if 1 ≤ x ∧ x + 1 < img.width ∧ 1 ≤ y ∧ y + 1 < img.height then
    min 255 (roundSqrtNat (magSqAt img x y))
  else 0

/- maxGradient is tracked from the UNCLAMPED magnitudes; comparing squared
   magnitudes gives the same maximum. -/
def edgeMaxSq (img : PixelBuffer) : ℕ :=
  ((List.range (img.width * img.height)).map fun i =>
    let x := i % img.width
    let y := i / img.width
    if 1 ≤ x ∧ x + 1 < img.width ∧ 1 ≤ y ∧ y + 1 < img.height then
      magSqAt img x y
    else 0).foldr max 0

/- The final edge map: if maxGradient > 0 every stored (already clamped)
   value s is replaced by the Uint8ClampedArray store of
   (s / maxGradient) * 255 = (255 * s) / sqrt maxSq. -/
def createEdgeMap (img : PixelBuffer) : ℕ → ℕ := fun i =>
  if edgeMaxSq img = 0 then rawEdge img i
  else min 255 (normHalfEven (255 * rawEdge img i) (edgeMaxSq img))

/- getCentroid and getArea (lines 302-310). -/
def getCentroid (t : Tri) : ℚ × ℚ :=
  ((t.1.1 + t.2.1.1 + t.2.2.1) / 3, (t.1.2 + t.2.1.2 + t.2.2.2) / 3)

def getArea (t : Tri) : ℚ :=
  |(t.1.1 * (t.2.1.2 - t.2.2.2) + t.2.1.1 * (t.2.2.2 - t.1.2)
    + t.2.2.1 * (t.1.2 - t.2.1.2)) / 2|

/- The filter predicate of line 57: some vertex lies outside the canvas. -/
def vertexOut (v : ℚ × ℚ) (w h : ℚ) : Prop :=
  v.1 < 0 ∨ w < v.1 ∨ v.2 < 0 ∨ h < v.2

instance (v : ℚ × ℚ) (w h : ℚ) : Decidable (vertexOut v w h) := by
  unfold vertexOut; infer_instance

def triOut (t : Tri) (w h : ℚ) : Prop :=
  vertexOut t.1 w h ∨ vertexOut t.2.1 w h ∨ vertexOut t.2.2 w h

instance (t : Tri) (w h : ℚ) : Decidable (triOut t w h) := by
  unfold triOut; infer_instance

/- The integers a, a+1, ..., b-1 (the JavaScript for loops of
   getAverageColor run from the lower bound while strictly below the
   upper bound). -/
def intRange (a b : ℤ) : List ℤ :=
  (List.range (b - a).toNat).map fun k => a + (k : ℤ)

/- The barycentric containment test of lines 329-337.  When detT = 0 the
   JavaScript lambdas are NaN or infinite and the three non-negativity
   comparisons never all succeed, so no pixel is counted. -/
def baryContains (t : Tri) (x y : ℤ) : Bool :=
  let p1 := t.1
  let p2 := t.2.1
  let p3 := t.2.2
  let detT := (p2.2 - p3.2) * (p1.1 - p3.1) + (p3.1 - p2.1) * (p1.2 - p3.2)
  if detT = 0 then false
  else
    let l1 := ((p2.2 - p3.2) * ((x : ℚ) - p3.1)
      + (p3.1 - p2.1) * ((y : ℚ) - p3.2)) / detT
    let l2 := ((p3.2 - p1.2) * ((x : ℚ) - p3.1)
      + (p1.1 - p3.1) * ((y : ℚ) - p3.2)) / detT
    decide (0 ≤ l1 ∧ 0 ≤ l2 ∧ 0 ≤ 1 - l1 - l2)

def pixelRGB (img : PixelBuffer) (x y : ℤ) : ℕ × ℕ × ℕ :=
  let idx := ((y * (img.width : ℤ) + x) * 4).toNat
  (img.data idx, img.data (idx + 1), img.data (idx + 2))

/- The clamped axis-aligned bounding box of getAverageColor
   (lines 320-323). -/
def bbMinX (t : Tri) : ℤ := max 0 ⌊min t.1.1 (min t.2.1.1 t.2.2.1)⌋

def bbMaxX (t : Tri) (img : PixelBuffer) : ℤ :=
  min (img.width : ℤ) ⌈max t.1.1 (max t.2.1.1 t.2.2.1)⌉

def bbMinY (t : Tri) : ℤ := max 0 ⌊min t.1.2 (min t.2.1.2 t.2.2.2)⌋

def bbMaxY (t : Tri) (img : PixelBuffer) : ℤ :=
  min (img.height : ℤ) ⌈max t.1.2 (max t.2.1.2 t.2.2.2)⌉

/- The integer pixels of the bounding box that pass the barycentric
   containment test (the double loop of lines 331-356, y outer, x
   inner). -/
def avgPixels (t : Tri) (img : PixelBuffer) : List (ℤ × ℤ) :=
  ((intRange (bbMinY t) (bbMaxY t img)).flatMap fun y =>
    (intRange (bbMinX t) (bbMaxX t img)).map fun x => (x, y)).filter
      fun p => baryContains t p.1 p.2

/- getAverageColor (lines 312-369).  labOfRgb and rgbOfLab are the d3.lab
   and d3.rgb collaborator conversions.  Note that the lab branch of the
   final return (line 365) applies Math.round but NO clamping. -/
def getAverageColor (labOfRgb : ℕ × ℕ × ℕ → ℚ × ℚ × ℚ)
    (rgbOfLab : ℚ × ℚ × ℚ → ℚ × ℚ × ℚ) (t : Tri) (img : PixelBuffer)
    (cs : ColorSpaceE) : ℚ × ℚ × ℚ :=
  let contained := avgPixels t img
  let count := contained.length
  if count = 0 then
    let centerIdx :=
      (((bbMinY t + bbMaxY t img).fdiv 2 * (img.width : ℤ)
        + (bbMinX t + bbMaxX t img).fdiv 2) * 4).toNat
    ((img.data centerIdx : ℚ), (img.data (centerIdx + 1) : ℚ),
     (img.data (centerIdx + 2) : ℚ))
  else
    let vals := contained.map fun p =>
      let c := pixelRGB img p.1 p.2
      match cs with
      | ColorSpaceE.rgb => ((c.1 : ℚ), (c.2.1 : ℚ), (c.2.2 : ℚ))
      | ColorSpaceE.lab => labOfRgb c
    let c1 := (vals.map fun v => v.1).sum
    let c2 := (vals.map fun v => v.2.1).sum
    let c3 := (vals.map fun v => v.2.2).sum
    match cs with
    | ColorSpaceE.lab =>
        let avg := rgbOfLab (c1 / (count : ℚ), c2 / (count : ℚ),
          c3 / (count : ℚ))
        ((jsRound avg.1 : ℚ), (jsRound avg.2.1 : ℚ), (jsRound avg.2.2 : ℚ))
    | ColorSpaceE.rgb =>
        ((jsRound (c1 / (count : ℚ)) : ℚ), (jsRound (c2 / (count : ℚ)) : ℚ),
         (jsRound (c3 / (count : ℚ)) : ℚ))

/- The triangle filter and enrichment loop of lines 50-79: walk the faces
   in triangulator order, discard out-of-canvas and sub-unit-area faces,
   assign ids densely from cid, and record (face index, id) in the
   insertion-ordered index map. -/
def buildLoop (labOfRgb : ℕ × ℕ × ℕ → ℚ × ℚ × ℚ)
    (rgbOfLab : ℚ × ℚ × ℚ → ℚ × ℚ × ℚ) (img : PixelBuffer)
    (cs : ColorSpaceE) (w h : ℚ) :
    List Tri → ℕ → ℕ → List TriangleE × List (ℕ × ℕ)
  | [], _, _ => ([], [])
  | t :: rest, i, cid =>
      if triOut t w h then
        buildLoop labOfRgb rgbOfLab img cs w h rest (i + 1) cid
      else if getArea t < 1 then
        buildLoop labOfRgb rgbOfLab img cs w h rest (i + 1) cid
      else
        let res := buildLoop labOfRgb rgbOfLab img cs w h rest (i + 1)
          (cid + 1)
        ({ id := cid, vertices := t, centroid := getCentroid t,
           area_px := getArea t,
           avg_color := getAverageColor labOfRgb rgbOfLab t img cs,
           neighbors := [] } :: res.1,
         (i, cid) :: res.2)

/- Array.from(map.entries()).find of line 83: first entry whose value is
   the given id, returning its key (the original face index). -/
def lookupIdx (mp : List (ℕ × ℕ)) (idv : ℕ) : Option ℕ :=
  (mp.find? fun e => e.2 == idv).map fun e => e.1

/- map.get of line 88. -/
def lookupId (mp : List (ℕ × ℕ)) (i : ℕ) : Option ℕ :=
  (mp.find? fun e => e.1 == i).map fun e => e.2

/- The neighbor resolution loop of lines 81-94.  nbrC is the
   delaunay.neighbors collaborator.  The JavaScript truthiness test
   if (neighborId) drops both missing ids and the (never assigned) id 0. -/
def addNeighbors (ts : List TriangleE) (mp : List (ℕ × ℕ))
    (nbrC : ℕ → List ℕ) : List TriangleE :=
  ts.map fun tr =>
    match lookupIdx mp tr.id with
    | none => tr
    | some oi =>
        { id := tr.id, vertices := tr.vertices, centroid := tr.centroid,
          area_px := tr.area_px, avg_color := tr.avg_color,
          neighbors := tr.neighbors ++ (nbrC oi).filterMap fun ni =>
            match lookupId mp ni with
            | some nid => if nid = 0 then none else some nid
            | none => none }

/- generateLowPolyData (lines 19-112).  resampleC models the canvas
   drawImage/getImageData pair (it closes over the source image),
   delaunayPolysC the d3.Delaunay trianglePolygons output and delaunayNbrC
   its neighbors relation.  The promise resolves with the assembled
   output; the source contains NO validation of the settings, so no error
   outcome exists in the embedding (exceptions could only originate in
   the external collaborators).  none models a Poisson sampling run that
   has not terminated within fuel. -/
def generateEmbed (resampleC : ℤ → ℤ → PixelBuffer)
    (delaunayPolysC : List (ℚ × ℚ) → List Tri)
    (delaunayNbrC : List (ℚ × ℚ) → ℕ → List ℕ)
    (sqrtF cosF sinF : ℚ → ℚ) (piQ : ℚ)
    (labOfRgb : ℕ × ℕ × ℕ → ℚ × ℚ × ℚ)
    (rgbOfLab : ℚ × ℚ × ℚ → ℚ × ℚ × ℚ)
    (imageW imageH : ℕ) (sourceFileName : String) (s : SettingsE)
    (rand : ℕ → ℚ) (fuel : ℕ) : Option LowPolyOutputE :=
  let dims := scaledDims imageW imageH s.maxSize
  let w : ℤ := dims.1
  let h : ℤ := dims.2
  let img := resampleC w h
  let ptsO : Option (List (ℚ × ℚ)) :=
    match s.sampler with
    | SamplerE.grid => some (sampleGrid sqrtF (w : ℚ) (h : ℚ) s.points rand)
    | SamplerE.poisson =>
        samplePoisson sqrtF cosF sinF piQ (w : ℚ) (h : ℚ) s.points rand fuel
    | SamplerE.edgeAware =>
        some (sampleEdgeAware w.toNat h.toNat s.points (createEdgeMap img)
          s.edgeWeight rand)
  ptsO.map fun pts0 =>
    let pts := addBorderPoints pts0 (w : ℚ) (h : ℚ)
    let polys := delaunayPolysC pts
    let br := buildLoop labOfRgb rgbOfLab img s.colorSpace (w : ℚ) (h : ℚ)
      polys 0 1
    let tris :=
      if s.withNeighbors then addNeighbors br.1 br.2 (delaunayNbrC pts)
      else br.1
    { version := "1.0", imageWidth := w, imageHeight := h,
      source := sourceFileName, paramsSampler := s.sampler,
      paramsPoints := s.points, paramsSeed := s.seed,
      paramsColorSpace := s.colorSpace, triangles := tris }

/- Concrete instances used to evaluate the embedding on specific inputs.
   Collaborator instantiations are chosen so that at every argument they
   are actually applied to during these runs they return the exact IEEE
   double value of the corresponding library function (or a value whose
   difference cannot affect any branch taken). -/

/- The exact rational value of the IEEE double Math.PI. -/
def piJS : ℚ := 884279719003555 / 281474976710656

/- The exact rational value of the IEEE double Math.sqrt 2. -/
def sqrt2JS : ℚ := 6369051672525773 / 4503599627370496

/- A trivial collaborator for runs in which the function is never
   consulted on a value that matters. -/
def zeroF : ℚ → ℚ := fun _ => 0

/- A 4x4 solid red RGBA image. -/
def redImg : PixelBuffer :=
  { width := 4, height := 4,
    data := fun i => if i % 4 = 0 ∨ i % 4 = 3 then 255 else 0 }

def redResample : ℤ → ℤ → PixelBuffer := fun _ _ => redImg

/- A Delaunay collaborator returning the two triangles that triangulate
   the 4x4 square. -/
def twoTriPolys : List (ℚ × ℚ) → List Tri := fun _ =>
  [((0, 0), (4, 0), (0, 4)), ((4, 4), (4, 0), (0, 4))]

/- Face adjacency for the two faces above: each is the only neighbor of
   the other. -/
def twoTriNbr : List (ℚ × ℚ) → ℕ → List ℕ := fun _ i =>
  if i = 0 then [1] else [0]

def settingsGrid0 : SettingsE :=
  { maxSize := 1024, points := 0, sampler := SamplerE.grid, seed := 42,
    edgeWeight := 4 / 5, colorSpace := ColorSpaceE.rgb,
    withNeighbors := false }

def settingsGrid0N : SettingsE :=
  { maxSize := 1024, points := 0, sampler := SamplerE.grid, seed := 42,
    edgeWeight := 4 / 5, colorSpace := ColorSpaceE.rgb,
    withNeighbors := true }

/- A 4x4 image whose left two pixel columns are red and right two are
   blue. -/
def redBlueImg : PixelBuffer :=
  { width := 4, height := 4,
    data := fun i =>
      let p := i / 4
      let ch := i % 4
      if ch = 3 then 255
      else if p % 4 < 2 then (if ch = 0 then 255 else 0)
      else (if ch = 2 then 255 else 0) }

def redBlueResample : ℤ → ℤ → PixelBuffer := fun _ _ => redBlueImg

def oneTriPolys : List (ℚ × ℚ) → List Tri := fun _ =>
  [((0, 0), (4, 0), (0, 4))]

/- d3.lab of pure red and of pure blue, to two decimals (the exact IEEE
   doubles differ from these by less than 10^-2; the difference cannot
   change which branch the run takes, since these values are only summed,
   averaged and passed on to rgbOfLabCx). -/
def labRed : ℚ × ℚ × ℚ := (5324 / 100, 8009 / 100, 6720 / 100)

def labBlue : ℚ × ℚ × ℚ := (3230 / 100, 7919 / 100, -10786 / 100)

def labOfRgbCx : ℕ × ℕ × ℕ → ℚ × ℚ × ℚ := fun c =>
  if c = (255, 0, 0) then labRed
  else if c = (0, 0, 255) then labBlue
  else (0, 0, 0)

/- The average of 8 red and 5 blue lab triples, the exact argument the
   lab branch of getAverageColor passes back to the d3 conversion in the
   run below. -/
def labAvgCx : ℚ × ℚ × ℚ := (29371 / 650, 103667 / 1300, -17 / 130)

/- d3.lab(...).rgb() is unclamped: for this out-of-gamut average of
   saturated red and blue pixels the linear green channel is negative and
   the returned g field is a negative double (cf. spec section 9: the
   conversion is sensitive to out-of-gamut values after averaging, which
   is why it tells reimplementors to clamp).  The instance returns such an
   unclamped triple. -/
def rgbOfLabCx : ℚ × ℚ × ℚ → ℚ × ℚ × ℚ := fun t =>
  if t = labAvgCx then (1487 / 10, -577 / 10, 1322 / 10) else (0, 0, 0)

def settingsLab0 : SettingsE :=
  { maxSize := 1024, points := 0, sampler := SamplerE.grid, seed := 42,
    edgeWeight := 4 / 5, colorSpace := ColorSpaceE.lab,
    withNeighbors := false }

/- The 3x3 image whose left and middle columns are black and right column
   is white: the single interior pixel has Sobel magnitude 1020. -/
def img3x3 : PixelBuffer :=
  { width := 3, height := 3,
    data := fun i =>
      let p := i / 4
      let ch := i % 4
      if ch = 3 then 255 else if p % 3 = 2 then 255 else 0 }

/- Inputs of the Poisson counterexample run.  With these dimensions
   width * height / (numPoints * Math.PI) is exactly 1 (all operations
   exact in IEEE doubles as well), so r = 1.5 and the cell size is
   1.5 / sqrt 2 > 1 = height, making rows = 0: the separation scan never
   finds a cell in range and every in-bounds candidate is accepted. -/
def c4W : ℚ := 884279719003555

def c4N : ℤ := 281474976710656

def c4sqrt : ℚ → ℚ := fun q =>
  if q = 1 then 1 else if q = 2 then sqrt2JS else 0

/- cos and sin are evaluated only at 0 (where both instances are IEEE
   exact) and at Math.PI / 2, where sin is the IEEE exact 1 and cos is
   6.12e-17, modelled as 0: the candidate it produces is rejected by the
   py >= height bound for any cos value in [-1, 1]. -/
def c4cos : ℚ → ℚ := fun q => if q = 0 then 1 else 0

def c4sin : ℚ → ℚ := fun q => if q = 0 then 0 else 1

/- The deterministic random stream of the counterexample run: place the
   seed point at (0, 0), from it accept (1.5, 0) and (2.9, 0), then feed
   every later attempt the angle Math.PI / 2 so its candidate leaves the
   1-pixel-high strip and the active list drains. -/
def c4rand : ℕ → ℚ := fun k =>
  if k = 7 then 14 / 15 else if k < 8 then 0 else 1 / 4

/- The r of the run: sqrt(width * height / (n * pi)) * 1.5 = 1.5. -/
def c4r : ℚ := c4sqrt (c4W * 1 / ((c4N : ℚ) * piJS)) * (3 / 2)

/- Four sample points used in the border-augmentation counterexample. -/
def pts4 : List (ℚ × ℚ) := [(1, 1), (2, 1), (1, 2), (2, 2)]

/- ------------------------------------------------------------------ -/
/- Theorems.                                                          -/
/- ------------------------------------------------------------------ -/

theorem sqrtGo_char (n : ℕ) : ∀ fuel k, k * k ≤ n →
    n < (k + fuel + 1) * (k + fuel + 1) →
    sqrtGo n fuel k * sqrtGo n fuel k ≤ n ∧
      n < (sqrtGo n fuel k + 1) * (sqrtGo n fuel k + 1) := by
  intro fuel
  induction fuel with
  | zero =>
      intro k hk hub
      simpa [sqrtGo] using ⟨hk, by simpa using hub⟩
  | succ f ih =>
      intro k hk hub
      by_cases hstep : (k + 1) * (k + 1) ≤ n
      · have harg : n < (k + 1 + f + 1) * (k + 1 + f + 1) := by
          have e : k + 1 + f + 1 = k + (f + 1) + 1 := by omega
          rw [e]; exact hub
        have := ih (k + 1) hstep harg
        simpa [sqrtGo, hstep] using this
      · have : ¬ ((k + 1) * (k + 1) ≤ n) := hstep
        simp only [sqrtGo, if_neg this]
        exact ⟨hk, by omega⟩

theorem natSqrt_le (n : ℕ) : natSqrt n * natSqrt n ≤ n :=
  (sqrtGo_char n n 0 (by omega) (by nlinarith)).1

theorem natSqrt_lt (n : ℕ) : n < (natSqrt n + 1) * (natSqrt n + 1) :=
  (sqrtGo_char n n 0 (by omega) (by nlinarith)).2

theorem ceilHalfSqrt_le (m : ℕ) :
    m ≤ 4 * (ceilHalfSqrt m * ceilHalfSqrt m) := by
  unfold ceilHalfSqrt
  by_cases hm : m = 0
  · simp [hm]
  · simp only [if_neg hm]
    have h1 := natSqrt_lt (m - 1)
    set s := natSqrt (m - 1) with hs
    have hsplit : s + 1 ≤ 2 * (s / 2 + 1) := by omega
    have h2 : (s + 1) * (s + 1) ≤ (2 * (s / 2 + 1)) * (2 * (s / 2 + 1)) :=
      Nat.mul_le_mul hsplit hsplit
    have h3 : (2 * (s / 2 + 1)) * (2 * (s / 2 + 1))
        = 4 * ((s / 2 + 1) * (s / 2 + 1)) := by ring
    omega

theorem ceilHalfSqrt_lt (m : ℕ) (h : 0 < m) :
    4 * ((ceilHalfSqrt m - 1) * (ceilHalfSqrt m - 1)) < m := by
  unfold ceilHalfSqrt
  have hm : ¬ m = 0 := by omega
  simp only [if_neg hm]
  have h1 := natSqrt_le (m - 1)
  set s := natSqrt (m - 1) with hs
  have h2 : (2 * (s / 2)) * (2 * (s / 2)) ≤ s * s := by
    have hhalf : 2 * (s / 2) ≤ s := by omega
    exact Nat.mul_le_mul hhalf hhalf
  have h3 : (2 * (s / 2)) * (2 * (s / 2)) = 4 * ((s / 2) * (s / 2)) := by
    ring
  have h4 : s / 2 + 1 - 1 = s / 2 := by omega
  rw [h4]
  omega

theorem jsRound_le_of_le {q : ℚ} {b : ℤ} (h : q ≤ (b : ℚ)) : jsRound q ≤ b := by
  unfold jsRound
  have hlt : ⌊q + 1 / 2⌋ < b + 1 := Int.floor_lt.2 (by push_cast; linarith)
  omega

theorem jsRound_nonneg {q : ℚ} (h : 0 ≤ q) : 0 ≤ jsRound q := by
  unfold jsRound
  have : (0 : ℚ) ≤ q + 1 / 2 := by linarith
  exact Int.floor_nonneg.2 this

theorem jsRound_pos {q : ℚ} (h : 1 / 2 ≤ q) : 1 ≤ jsRound q := by
  unfold jsRound
  exact Int.le_floor.2 (by push_cast; linarith)

/-- C9 counterexample: for a 10000 x 1 source and maxSize 1024 the scaled
height rounds to 0, which is not a positive integer (and getImageData on a
zero-height canvas throws, so no valid PixelBuffer results). -/
theorem scaledDims_claim_false :
    scaledDims 10000 1 1024 = (1024, 0) ∧
      ¬ (0 < (scaledDims 10000 1 1024).2) := by decide

/-- C9 (amended): the Image Normalizer dimension computation is a no-op
when both dimensions are at most maxSize; otherwise the larger input
dimension becomes maxSize, the output maximum is maxSize, and the other
dimension is scaled by the aspect ratio and rounded (Math.round).  The
rounded dimension is positive only under the extra hypothesis that the
aspect ratio is not too extreme (2 * smaller * maxSize >= larger);
otherwise it can be 0, so the result is not always a valid PixelBuffer. -/
theorem scaledDims_spec (w h m : ℕ) (hw : 0 < w) (hh : 0 < h) (_hm : 0 < m) :
    (w ≤ m → h ≤ m → scaledDims w h m = ((w : ℤ), (h : ℤ)))
    ∧ (m < w ∨ m < h → max (scaledDims w h m).1 (scaledDims w h m).2 = (m : ℤ))
    ∧ (m < w → h < w →
        scaledDims w h m = ((m : ℤ), jsRound ((h : ℚ) * ((m : ℚ) / (w : ℚ)))))
    ∧ ((m < w ∨ m < h) → ¬ h < w →
        scaledDims w h m = (jsRound ((w : ℚ) * ((m : ℚ) / (h : ℚ))), (m : ℤ)))
    ∧ (m < w → h < w → (w : ℚ) ≤ 2 * h * m → 0 < (scaledDims w h m).2)
    ∧ ((m < w ∨ m < h) → ¬ h < w → (h : ℚ) ≤ 2 * w * m →
        0 < (scaledDims w h m).1) := by
  have hwq : (0 : ℚ) < (w : ℚ) := by exact_mod_cast hw
  have hhq : (0 : ℚ) < (h : ℚ) := by exact_mod_cast hh
  refine ⟨?_, ?_, ?_, ?_, ?_, ?_⟩
  · intro h1 h2
    unfold scaledDims
    rw [if_neg (by omega)]
  · intro hex
    unfold scaledDims
    rw [if_pos hex]
    by_cases hcmp : h < w
    · rw [if_pos hcmp]
      have hlt : (h : ℚ) * ((m : ℚ) / (w : ℚ)) ≤ (m : ℚ) := by
        rw [mul_div_assoc']
        rw [div_le_iff₀ hwq]
        have : (h : ℚ) ≤ (w : ℚ) := by exact_mod_cast le_of_lt hcmp
        nlinarith
      have := jsRound_le_of_le hlt
      simp only [max_eq_left_iff]
      exact this
    · rw [if_neg hcmp]
      have hwle : (w : ℚ) ≤ (h : ℚ) := by
        exact_mod_cast not_lt.mp hcmp
      have hle : (w : ℚ) * ((m : ℚ) / (h : ℚ)) ≤ (m : ℚ) := by
        rw [mul_div_assoc']
        rw [div_le_iff₀ hhq]
        nlinarith
      have := jsRound_le_of_le hle
      simp only [max_eq_right_iff]
      exact this
  · intro h1 h2
    unfold scaledDims
    rw [if_pos (Or.inl h1), if_pos h2]
  · intro hex hcmp
    unfold scaledDims
    rw [if_pos hex, if_neg hcmp]
  · intro h1 h2 hratio
    unfold scaledDims
    rw [if_pos (Or.inl h1), if_pos h2]
    have : (1 : ℚ) / 2 ≤ (h : ℚ) * ((m : ℚ) / (w : ℚ)) := by
      rw [mul_div_assoc', le_div_iff₀ hwq]
      nlinarith
    simpa using jsRound_pos this
  · intro hex hcmp hratio
    unfold scaledDims
    rw [if_pos hex, if_neg hcmp]
    have : (1 : ℚ) / 2 ≤ (w : ℚ) * ((m : ℚ) / (h : ℚ)) := by
      rw [mul_div_assoc', le_div_iff₀ hhq]
      nlinarith
    simpa using jsRound_pos this

/-- C9 witness: a 4 x 2 source with maxSize 3 exceeds the bound, the
output is (3, 2), its maximum is 3 and both dimensions are positive. -/
theorem scaledDims_spec_witness :
    max (scaledDims 4 2 3).1 (scaledDims 4 2 3).2 = 3
    ∧ 0 < (scaledDims 4 2 3).2 := by
  have h := scaledDims_spec 4 2 3 (by norm_num) (by norm_num) (by norm_num)
  refine ⟨h.2.1 (by norm_num), h.2.2.2.2.1 (by norm_num) (by norm_num)
    (by norm_num)⟩

theorem flatMap4_length {α : Type} (f g fh fi : α → ℚ × ℚ) :
    ∀ l : List α,
      (l.flatMap fun i => [f i, g i, fh i, fi i]).length = 4 * l.length := by
  intro l
  induction l with
  | nil => simp
  | cons x xs ih => simp [ih]; omega

theorem borderEdgeLoop_length (w h : ℚ) (c : ℕ) :
    (borderEdgeLoop w h c).length = 4 * (c - 1) := by
  unfold borderEdgeLoop
  rw [flatMap4_length]
  rw [List.length_range']

/-- C8 counterexample: with 4 sampled points the claim predicts
ceil(sqrt 4 / 2) - 1 = 0 interior points per edge, i.e. 8 points in total
after augmentation; the code computes the count from the length after the
corner push, ceil(sqrt 8 / 2) - 1 = 1 per edge, giving 12 points. -/
theorem addBorderPoints_claim_false :
    (addBorderPoints pts4 10 10).length = 12
    ∧ pts4.length + 4 + 4 * (ceilHalfSqrt pts4.length - 1) = 8
    ∧ (12 : ℕ) ≠ 8 := by decide

/-- C8 (amended): the Border Augmenter appends the four exact corners and,
along each of the four edges, ceil(sqrt(n + 4) / 2) - 1 evenly spaced
interior points, where n is the sampled point count BEFORE augmentation
(the corner push happens first, so the count is taken from n + 4, not n):
the output is the input followed by the corners followed by the edge
loop, the edge loop contributes 4 * (c - 1) points for
c = ceilHalfSqrt (n + 4), and each edge receives the points at parameters
i / c for 1 <= i <= c - 1. -/
theorem addBorderPoints_spec (pts : List (ℚ × ℚ)) (w h : ℚ) :
    addBorderPoints pts w h
      = pts ++ [(0, 0), (w, 0), (0, h), (w, h)]
          ++ borderEdgeLoop w h (ceilHalfSqrt (pts.length + 4))
    ∧ (borderEdgeLoop w h (ceilHalfSqrt (pts.length + 4))).length
        = 4 * (ceilHalfSqrt (pts.length + 4) - 1)
    ∧ ∀ i, 1 ≤ i → i < ceilHalfSqrt (pts.length + 4) →
        ((i : ℚ) / (ceilHalfSqrt (pts.length + 4) : ℚ) * w, (0 : ℚ))
          ∈ addBorderPoints pts w h
        ∧ ((0 : ℚ), (i : ℚ) / (ceilHalfSqrt (pts.length + 4) : ℚ) * h)
          ∈ addBorderPoints pts w h := by
  have heq : addBorderPoints pts w h
      = pts ++ [(0, 0), (w, 0), (0, h), (w, h)]
          ++ borderEdgeLoop w h (ceilHalfSqrt (pts.length + 4)) := by
    show (pts ++ [(0, 0), (w, 0), (0, h), (w, h)])
        ++ borderEdgeLoop w h
          (ceilHalfSqrt (pts ++ [(0, 0), (w, 0), (0, h), (w, h)]).length)
      = _
    have hlen : (pts ++ [((0 : ℚ), (0 : ℚ)), (w, 0), (0, h), (w, h)]).length
        = pts.length + 4 := by simp
    rw [hlen]
  refine ⟨heq, borderEdgeLoop_length w h _, ?_⟩
  intro i h1 h2
  have hmem : i ∈ List.range' 1 (ceilHalfSqrt (pts.length + 4) - 1) := by
    rw [List.mem_range'_1]
    omega
  have hx : ((i : ℚ) / (ceilHalfSqrt (pts.length + 4) : ℚ) * w, (0 : ℚ))
      ∈ borderEdgeLoop w h (ceilHalfSqrt (pts.length + 4)) := by
    unfold borderEdgeLoop
    exact List.mem_flatMap.2 ⟨i, hmem, by simp⟩
  have hy : ((0 : ℚ), (i : ℚ) / (ceilHalfSqrt (pts.length + 4) : ℚ) * h)
      ∈ borderEdgeLoop w h (ceilHalfSqrt (pts.length + 4)) := by
    unfold borderEdgeLoop
    exact List.mem_flatMap.2 ⟨i, hmem, by simp⟩
  rw [heq]
  exact ⟨List.mem_append_right _ hx, List.mem_append_right _ hy⟩

/-- C8 witness: with the 4 concrete sample points pts4 and a 10 x 10
canvas, c = ceil(sqrt 8 / 2) = 2 and the midpoint of the top edge is
appended. -/
theorem addBorderPoints_spec_witness :
    ((1 : ℚ) / (ceilHalfSqrt (pts4.length + 4) : ℚ) * 10, (0 : ℚ))
      ∈ addBorderPoints pts4 10 10 :=
  ((addBorderPoints_spec pts4 10 10).2.2 1 (by norm_num) (by decide)).1

/-- C3 (code bug, evaluation at the failing input): for the 3 x 3 image
with black left and middle columns and a white right column the single
interior pixel has Sobel magnitude 1020, so some gradient is nonzero,
yet the normalized edge map has maximum 64, not 255: the raw magnitude
was clamped to 255 by the Uint8ClampedArray store BEFORE being divided by
the unclamped maximum 1020, so (255 / 1020) * 255 = 63.75 rounds to 64. -/
theorem createEdgeMap_max_not_255 :
    edgeMaxSq img3x3 ≠ 0
    ∧ (List.range 9).map (createEdgeMap img3x3)
        = [0, 0, 0, 0, 64, 0, 0, 0, 0]
    ∧ 255 ∉ (List.range 9).map (createEdgeMap img3x3) := by decide

theorem buildLoop_mem (labC : ℕ × ℕ × ℕ → ℚ × ℚ × ℚ)
    (rgbC : ℚ × ℚ × ℚ → ℚ × ℚ × ℚ) (img : PixelBuffer) (cs : ColorSpaceE)
    (w h : ℚ) : ∀ (polys : List Tri) (i cid : ℕ),
    ∀ tr ∈ (buildLoop labC rgbC img cs w h polys i cid).1,
      ¬ triOut tr.vertices w h ∧ ¬ (getArea tr.vertices < 1)
      ∧ tr.avg_color = getAverageColor labC rgbC tr.vertices img cs
      ∧ tr.neighbors = [] := by
  intro polys
  induction polys with
  | nil => intro i cid tr htr; simp [buildLoop] at htr
  | cons t rest ih =>
      intro i cid tr htr
      by_cases h1 : triOut t w h
      · simp only [buildLoop, if_pos h1] at htr
        exact ih (i + 1) cid tr htr
      · by_cases h2 : getArea t < 1
        · simp only [buildLoop, if_neg h1, if_pos h2] at htr
          exact ih (i + 1) cid tr htr
        · simp only [buildLoop, if_neg h1, if_neg h2] at htr
          rcases List.mem_cons.mp htr with he | hm
          · subst he
            refine ⟨h1, h2, ?_, rfl⟩
            dsimp only
          · exact ih (i + 1) (cid + 1) tr hm

theorem buildLoop_ids (labC : ℕ × ℕ × ℕ → ℚ × ℚ × ℚ)
    (rgbC : ℚ × ℚ × ℚ → ℚ × ℚ × ℚ) (img : PixelBuffer) (cs : ColorSpaceE)
    (w h : ℚ) : ∀ (polys : List Tri) (i cid : ℕ),
    (buildLoop labC rgbC img cs w h polys i cid).1.map (fun tr => tr.id)
      = List.range' cid
          (buildLoop labC rgbC img cs w h polys i cid).1.length := by
  intro polys
  induction polys with
  | nil => intro i cid; simp [buildLoop]
  | cons t rest ih =>
      intro i cid
      by_cases h1 : triOut t w h
      · simp only [buildLoop, if_pos h1]
        exact ih (i + 1) cid
      · by_cases h2 : getArea t < 1
        · simp only [buildLoop, if_neg h1, if_pos h2]
          exact ih (i + 1) cid
        · simp only [buildLoop, if_neg h1, if_neg h2, List.map_cons,
            List.length_cons]
          rw [ih (i + 1) (cid + 1), List.range'_succ]

theorem buildLoop_map_snd (labC : ℕ × ℕ × ℕ → ℚ × ℚ × ℚ)
    (rgbC : ℚ × ℚ × ℚ → ℚ × ℚ × ℚ) (img : PixelBuffer) (cs : ColorSpaceE)
    (w h : ℚ) : ∀ (polys : List Tri) (i cid : ℕ),
    (buildLoop labC rgbC img cs w h polys i cid).2.map (fun e => e.2)
      = List.range' cid
          (buildLoop labC rgbC img cs w h polys i cid).1.length := by
  intro polys
  induction polys with
  | nil => intro i cid; simp [buildLoop]
  | cons t rest ih =>
      intro i cid
      by_cases h1 : triOut t w h
      · simp only [buildLoop, if_pos h1]
        exact ih (i + 1) cid
      · by_cases h2 : getArea t < 1
        · simp only [buildLoop, if_neg h1, if_pos h2]
          exact ih (i + 1) cid
        · simp only [buildLoop, if_neg h1, if_neg h2, List.map_cons,
            List.length_cons]
          rw [ih (i + 1) (cid + 1), List.range'_succ]

theorem addNeighbors_fields (ts : List TriangleE) (mp : List (ℕ × ℕ))
    (nbrC : ℕ → List ℕ) :
    ∀ tr ∈ addNeighbors ts mp nbrC, ∃ tr0 ∈ ts,
      tr.id = tr0.id ∧ tr.vertices = tr0.vertices
      ∧ tr.avg_color = tr0.avg_color := by
  intro tr htr
  rcases List.mem_map.mp htr with ⟨tr0, htr0, hf⟩
  refine ⟨tr0, htr0, ?_⟩
  cases hl : lookupIdx mp tr0.id with
  | none => rw [hl] at hf; subst hf; exact ⟨rfl, rfl, rfl⟩
  | some oi => rw [hl] at hf; subst hf; exact ⟨rfl, rfl, rfl⟩

theorem addNeighbors_map_id (ts : List TriangleE) (mp : List (ℕ × ℕ))
    (nbrC : ℕ → List ℕ) :
    (addNeighbors ts mp nbrC).map (fun tr => tr.id)
      = ts.map (fun tr => tr.id) := by
  unfold addNeighbors
  rw [List.map_map]
  apply List.map_congr_left
  intro tr _
  cases hl : lookupIdx mp tr.id <;> simp [hl]

theorem addNeighbors_length (ts : List TriangleE) (mp : List (ℕ × ℕ))
    (nbrC : ℕ → List ℕ) : (addNeighbors ts mp nbrC).length = ts.length := by
  unfold addNeighbors
  exact List.length_map ts _

theorem lookupId_mem {mp : List (ℕ × ℕ)} {i v : ℕ}
    (h : lookupId mp i = some v) : v ∈ mp.map fun e => e.2 := by
  unfold lookupId at h
  rcases Option.map_eq_some'.mp h with ⟨e, hf, he⟩
  exact he ▸ List.mem_map_of_mem _ (List.mem_of_find?_eq_some hf)

theorem addNeighbors_closed (ts : List TriangleE) (mp : List (ℕ × ℕ))
    (nbrC : ℕ → List ℕ) (hempty : ∀ tr ∈ ts, tr.neighbors = []) :
    ∀ tr ∈ addNeighbors ts mp nbrC, ∀ nid ∈ tr.neighbors,
      nid ∈ mp.map fun e => e.2 := by
  intro tr htr nid hnid
  rcases List.mem_map.mp htr with ⟨tr0, htr0, hf⟩
  cases hl : lookupIdx mp tr0.id with
  | none =>
      rw [hl] at hf
      subst hf
      rw [hempty tr0 htr0] at hnid
      simp at hnid
  | some oi =>
      rw [hl] at hf
      subst hf
      simp only [hempty tr0 htr0, List.nil_append] at hnid
      rcases List.mem_filterMap.mp hnid with ⟨ni, _, hmatch⟩
      cases hli : lookupId mp ni with
      | none => rw [hli] at hmatch; simp at hmatch
      | some v =>
          rw [hli] at hmatch
          by_cases hv : v = 0
          · simp [hv] at hmatch
          · simp only [if_neg hv, Option.some.injEq] at hmatch
            exact hmatch ▸ lookupId_mem hli

theorem not_triOut_bounds {t : Tri} {w h : ℚ} (hn : ¬ triOut t w h) :
    0 ≤ t.1.1 ∧ t.1.1 ≤ w ∧ 0 ≤ t.1.2 ∧ t.1.2 ≤ h
    ∧ 0 ≤ t.2.1.1 ∧ t.2.1.1 ≤ w ∧ 0 ≤ t.2.1.2 ∧ t.2.1.2 ≤ h
    ∧ 0 ≤ t.2.2.1 ∧ t.2.2.1 ≤ w ∧ 0 ≤ t.2.2.2 ∧ t.2.2.2 ≤ h := by
  unfold triOut vertexOut at hn
  push_neg at hn
  tauto

/-- C6: in every LowPolyResult the Triangle ids are exactly 1, 2, ..., N in
list order (dense, starting at 1, no gaps or duplicates, assigned in
filter-survival order), for every image, settings, random stream and
collaborator instantiation. -/
theorem generate_ids_dense (resampleC : ℤ → ℤ → PixelBuffer)
    (delaunayPolysC : List (ℚ × ℚ) → List Tri)
    (delaunayNbrC : List (ℚ × ℚ) → ℕ → List ℕ)
    (sqrtF cosF sinF : ℚ → ℚ) (piQ : ℚ)
    (labC : ℕ × ℕ × ℕ → ℚ × ℚ × ℚ) (rgbC : ℚ × ℚ × ℚ → ℚ × ℚ × ℚ)
    (imageW imageH : ℕ) (srcName : String) (s : SettingsE)
    (rand : ℕ → ℚ) (fuel : ℕ) :
    ∀ out, generateEmbed resampleC delaunayPolysC delaunayNbrC sqrtF cosF
        sinF piQ labC rgbC imageW imageH srcName s rand fuel = some out →
      out.triangles.map (fun tr => tr.id)
        = List.range' 1 out.triangles.length := by
  intro out hout
  unfold generateEmbed at hout
  rcases Option.map_eq_some'.mp hout with ⟨pts0, _hpts, hf⟩
  subst hf
  dsimp only
  cases hws : s.withNeighbors with
  | false =>
      rw [if_neg Bool.false_ne_true]
      exact buildLoop_ids _ _ _ _ _ _ _ 0 1
  | true =>
      rw [if_pos rfl]
      rw [addNeighbors_map_id, addNeighbors_length]
      exact buildLoop_ids _ _ _ _ _ _ _ 0 1

/-- C6 witness: the two-triangle pipeline run with neighbor computation
enabled has triangle ids [1, 2]. -/
theorem generate_ids_dense_witness :
    (generateEmbed redResample twoTriPolys twoTriNbr zeroF zeroF zeroF 0
        (fun _ => (0, 0, 0)) (fun _ => (0, 0, 0)) 4 4 "input.png"
        settingsGrid0N (fun _ => 0) 0).elim False
      (fun o => o.triangles.map (fun tr => tr.id)
        = List.range' 1 o.triangles.length) := by
  cases hg : generateEmbed redResample twoTriPolys twoTriNbr zeroF zeroF
      zeroF 0 (fun _ => (0, 0, 0)) (fun _ => (0, 0, 0)) 4 4 "input.png"
      settingsGrid0N (fun _ => 0) 0 with
  | none =>
      have hsome : (generateEmbed redResample twoTriPolys twoTriNbr zeroF
          zeroF zeroF 0 (fun _ => (0, 0, 0)) (fun _ => (0, 0, 0)) 4 4
          "input.png" settingsGrid0N (fun _ => 0) 0).isSome = true := by
        decide
      rw [hg] at hsome
      simp at hsome
  | some o =>
      simp only [Option.elim]
      exact generate_ids_dense redResample twoTriPolys twoTriNbr zeroF zeroF
        zeroF 0 (fun _ => (0, 0, 0)) (fun _ => (0, 0, 0)) 4 4 "input.png"
        settingsGrid0N (fun _ => 0) 0 o hg

/-- C5: every Triangle of every LowPolyResult has its three vertices inside
[0, width] x [0, height] (bounds inclusive), where width and height are the
post-scaling dimensions recorded in the result. -/
theorem generate_vertices_in_bounds (resampleC : ℤ → ℤ → PixelBuffer)
    (delaunayPolysC : List (ℚ × ℚ) → List Tri)
    (delaunayNbrC : List (ℚ × ℚ) → ℕ → List ℕ)
    (sqrtF cosF sinF : ℚ → ℚ) (piQ : ℚ)
    (labC : ℕ × ℕ × ℕ → ℚ × ℚ × ℚ) (rgbC : ℚ × ℚ × ℚ → ℚ × ℚ × ℚ)
    (imageW imageH : ℕ) (srcName : String) (s : SettingsE)
    (rand : ℕ → ℚ) (fuel : ℕ) :
    ∀ out, generateEmbed resampleC delaunayPolysC delaunayNbrC sqrtF cosF
        sinF piQ labC rgbC imageW imageH srcName s rand fuel = some out →
      ∀ tr ∈ out.triangles,
        0 ≤ tr.vertices.1.1 ∧ tr.vertices.1.1 ≤ (out.imageWidth : ℚ)
        ∧ 0 ≤ tr.vertices.1.2 ∧ tr.vertices.1.2 ≤ (out.imageHeight : ℚ)
        ∧ 0 ≤ tr.vertices.2.1.1 ∧ tr.vertices.2.1.1 ≤ (out.imageWidth : ℚ)
        ∧ 0 ≤ tr.vertices.2.1.2 ∧ tr.vertices.2.1.2 ≤ (out.imageHeight : ℚ)
        ∧ 0 ≤ tr.vertices.2.2.1 ∧ tr.vertices.2.2.1 ≤ (out.imageWidth : ℚ)
        ∧ 0 ≤ tr.vertices.2.2.2
        ∧ tr.vertices.2.2.2 ≤ (out.imageHeight : ℚ) := by
  intro out hout tr htr
  unfold generateEmbed at hout
  rcases Option.map_eq_some'.mp hout with ⟨pts0, _hpts, hf⟩
  subst hf
  dsimp only at htr ⊢
  cases hws : s.withNeighbors with
  | false =>
      rw [hws, if_neg Bool.false_ne_true] at htr
      have hb := buildLoop_mem _ _ _ _ _ _ _ 0 1 tr htr
      exact not_triOut_bounds hb.1
  | true =>
      rw [hws, if_pos rfl] at htr
      obtain ⟨tr0, htr0, _hid, hvert, _hcol⟩ :=
        addNeighbors_fields _ _ _ tr htr
      have hb := buildLoop_mem _ _ _ _ _ _ _ 0 1 tr0 htr0
      rw [hvert]
      exact not_triOut_bounds hb.1

/-- C5 witness: in the two-triangle pipeline run, the first vertex of the
first triangle lies inside the 4 x 4 canvas. -/
theorem generate_vertices_in_bounds_witness :
    (generateEmbed redResample twoTriPolys twoTriNbr zeroF zeroF zeroF 0
        (fun _ => (0, 0, 0)) (fun _ => (0, 0, 0)) 4 4 "input.png"
        settingsGrid0 (fun _ => 0) 0).elim False
      (fun o => ∀ tr ∈ o.triangles,
        0 ≤ tr.vertices.1.1 ∧ tr.vertices.1.1 ≤ (o.imageWidth : ℚ)
        ∧ 0 ≤ tr.vertices.1.2 ∧ tr.vertices.1.2 ≤ (o.imageHeight : ℚ)
        ∧ 0 ≤ tr.vertices.2.1.1 ∧ tr.vertices.2.1.1 ≤ (o.imageWidth : ℚ)
        ∧ 0 ≤ tr.vertices.2.1.2 ∧ tr.vertices.2.1.2 ≤ (o.imageHeight : ℚ)
        ∧ 0 ≤ tr.vertices.2.2.1 ∧ tr.vertices.2.2.1 ≤ (o.imageWidth : ℚ)
        ∧ 0 ≤ tr.vertices.2.2.2
        ∧ tr.vertices.2.2.2 ≤ (o.imageHeight : ℚ)) := by
  cases hg : generateEmbed redResample twoTriPolys twoTriNbr zeroF zeroF
      zeroF 0 (fun _ => (0, 0, 0)) (fun _ => (0, 0, 0)) 4 4 "input.png"
      settingsGrid0 (fun _ => 0) 0 with
  | none =>
      have hsome : (generateEmbed redResample twoTriPolys twoTriNbr zeroF
          zeroF zeroF 0 (fun _ => (0, 0, 0)) (fun _ => (0, 0, 0)) 4 4
          "input.png" settingsGrid0 (fun _ => 0) 0).isSome = true := by
        decide
      rw [hg] at hsome
      simp at hsome
  | some o =>
      simp only [Option.elim]
      exact generate_vertices_in_bounds redResample twoTriPolys twoTriNbr
        zeroF zeroF zeroF 0 (fun _ => (0, 0, 0)) (fun _ => (0, 0, 0)) 4 4
        "input.png" settingsGrid0 (fun _ => 0) 0 o hg

/-- C7: if neighbor computation is requested, every id in every neighbors
list of every LowPolyResult refers to one of the triangles 1, ..., N of
that same result; filtered-out faces and unknown face indices are dropped,
never emitted. -/
theorem generate_neighbors_closed (resampleC : ℤ → ℤ → PixelBuffer)
    (delaunayPolysC : List (ℚ × ℚ) → List Tri)
    (delaunayNbrC : List (ℚ × ℚ) → ℕ → List ℕ)
    (sqrtF cosF sinF : ℚ → ℚ) (piQ : ℚ)
    (labC : ℕ × ℕ × ℕ → ℚ × ℚ × ℚ) (rgbC : ℚ × ℚ × ℚ → ℚ × ℚ × ℚ)
    (imageW imageH : ℕ) (srcName : String) (s : SettingsE)
    (rand : ℕ → ℚ) (fuel : ℕ) :
    ∀ out, generateEmbed resampleC delaunayPolysC delaunayNbrC sqrtF cosF
        sinF piQ labC rgbC imageW imageH srcName s rand fuel = some out →
      s.withNeighbors = true →
      ∀ tr ∈ out.triangles, ∀ nid ∈ tr.neighbors,
        1 ≤ nid ∧ nid ≤ out.triangles.length := by
  intro out hout hws tr htr nid hnid
  unfold generateEmbed at hout
  rcases Option.map_eq_some'.mp hout with ⟨pts0, _hpts, hf⟩
  subst hf
  dsimp only at htr ⊢
  rw [hws, if_pos rfl] at htr ⊢
  have hempty : ∀ t0 ∈ (buildLoop labC rgbC
      (resampleC (scaledDims imageW imageH s.maxSize).1
        (scaledDims imageW imageH s.maxSize).2) s.colorSpace
      ((scaledDims imageW imageH s.maxSize).1 : ℚ)
      ((scaledDims imageW imageH s.maxSize).2 : ℚ)
      (delaunayPolysC (addBorderPoints pts0
        ((scaledDims imageW imageH s.maxSize).1 : ℚ)
        ((scaledDims imageW imageH s.maxSize).2 : ℚ))) 0 1).1,
      t0.neighbors = [] :=
    fun t0 h0 => (buildLoop_mem _ _ _ _ _ _ _ 0 1 t0 h0).2.2.2
  have hmem := addNeighbors_closed _ _ _ hempty tr htr nid hnid
  rw [buildLoop_map_snd] at hmem
  rw [List.mem_range'_1] at hmem
  rw [addNeighbors_length]
  omega

/-- C7 witness: in the two-triangle run with neighbors enabled, every
neighbor id is in 1..N. -/
theorem generate_neighbors_closed_witness :
    (generateEmbed redResample twoTriPolys twoTriNbr zeroF zeroF zeroF 0
        (fun _ => (0, 0, 0)) (fun _ => (0, 0, 0)) 4 4 "input.png"
        settingsGrid0N (fun _ => 0) 0).elim False
      (fun o => ∀ tr ∈ o.triangles, ∀ nid ∈ tr.neighbors,
        1 ≤ nid ∧ nid ≤ o.triangles.length) := by
  cases hg : generateEmbed redResample twoTriPolys twoTriNbr zeroF zeroF
      zeroF 0 (fun _ => (0, 0, 0)) (fun _ => (0, 0, 0)) 4 4 "input.png"
      settingsGrid0N (fun _ => 0) 0 with
  | none =>
      have hsome : (generateEmbed redResample twoTriPolys twoTriNbr zeroF
          zeroF zeroF 0 (fun _ => (0, 0, 0)) (fun _ => (0, 0, 0)) 4 4
          "input.png" settingsGrid0N (fun _ => 0) 0).isSome = true := by
        decide
      rw [hg] at hsome
      simp at hsome
  | some o =>
      simp only [Option.elim]
      exact generate_neighbors_closed redResample twoTriPolys twoTriNbr
        zeroF zeroF zeroF 0 (fun _ => (0, 0, 0)) (fun _ => (0, 0, 0)) 4 4
        "input.png" settingsGrid0N (fun _ => 0) 0 o hg rfl

/-- C1 counterexample: with target point count 0 (grid sampler) the
generator does not fail before sampling or image access; it runs the whole
pipeline on the border points and resolves with a LowPolyResult that here
contains 2 triangles.  No InvalidInput outcome exists in the code. -/
theorem generate_zero_points_produces_result :
    (generateEmbed redResample twoTriPolys twoTriNbr zeroF zeroF zeroF 0
        (fun _ => (0, 0, 0)) (fun _ => (0, 0, 0)) 4 4 "input.png"
        settingsGrid0 (fun _ => 0) 0).map (fun o => o.triangles.length)
      = some 2
    ∧ settingsGrid0.points = 0 := by decide

/-- C1 (amended): generateLowPolyData performs no validation of the target
point count: for settings.points <= 0 with the grid sampler (whose loop
then runs zero iterations) the promise still resolves with a LowPolyResult
echoing the non-positive count, for every image, collaborator set and
random stream. -/
theorem generate_no_validation (resampleC : ℤ → ℤ → PixelBuffer)
    (delaunayPolysC : List (ℚ × ℚ) → List Tri)
    (delaunayNbrC : List (ℚ × ℚ) → ℕ → List ℕ)
    (sqrtF cosF sinF : ℚ → ℚ) (piQ : ℚ)
    (labC : ℕ × ℕ × ℕ → ℚ × ℚ × ℚ) (rgbC : ℚ × ℚ × ℚ → ℚ × ℚ × ℚ)
    (imageW imageH : ℕ) (srcName : String) (s : SettingsE)
    (rand : ℕ → ℚ) (fuel : ℕ)
    (_hp : s.points ≤ 0) (hs : s.sampler = SamplerE.grid) :
    ∃ out, generateEmbed resampleC delaunayPolysC delaunayNbrC sqrtF cosF
        sinF piQ labC rgbC imageW imageH srcName s rand fuel = some out
      ∧ out.paramsPoints = s.points := by
  unfold generateEmbed
  rw [hs]
  exact ⟨_, rfl, rfl⟩

/-- C1 witness: the amended statement applied to the concrete
two-triangle run with points = 0. -/
theorem generate_no_validation_witness :
    ∃ out, generateEmbed redResample twoTriPolys twoTriNbr zeroF zeroF
        zeroF 0 (fun _ => (0, 0, 0)) (fun _ => (0, 0, 0)) 4 4 "input.png"
        settingsGrid0 (fun _ => 0) 0 = some out
      ∧ out.paramsPoints = settingsGrid0.points :=
  generate_no_validation redResample twoTriPolys twoTriNbr zeroF zeroF
    zeroF 0 (fun _ => (0, 0, 0)) (fun _ => (0, 0, 0)) 4 4 "input.png"
    settingsGrid0 (fun _ => 0) 0 (by decide) rfl

theorem sum_bounds : ∀ l : List ℚ, (∀ x ∈ l, 0 ≤ x ∧ x ≤ 255) →
    0 ≤ l.sum ∧ l.sum ≤ 255 * (l.length : ℚ) := by
  intro l
  induction l with
  | nil => intro _; simp
  | cons x xs ih =>
      intro hb
      have hx := hb x (List.mem_cons_self x xs)
      have hxs := ih fun y hy => hb y (List.mem_cons_of_mem _ hy)
      simp only [List.sum_cons, List.length_cons]
      constructor
      · linarith [hx.1, hxs.1]
      · push_cast
        linarith [hx.2, hxs.2]

theorem getAverageColor_rgb (labC : ℕ × ℕ × ℕ → ℚ × ℚ × ℚ)
    (rgbC : ℚ × ℚ × ℚ → ℚ × ℚ × ℚ) (t : Tri) (img : PixelBuffer)
    (hd : ∀ i, img.data i ≤ 255) :
    (∃ k : ℤ, (getAverageColor labC rgbC t img ColorSpaceE.rgb).1 = (k : ℚ))
    ∧ 0 ≤ (getAverageColor labC rgbC t img ColorSpaceE.rgb).1
    ∧ (getAverageColor labC rgbC t img ColorSpaceE.rgb).1 ≤ 255
    ∧ (∃ k : ℤ,
        (getAverageColor labC rgbC t img ColorSpaceE.rgb).2.1 = (k : ℚ))
    ∧ 0 ≤ (getAverageColor labC rgbC t img ColorSpaceE.rgb).2.1
    ∧ (getAverageColor labC rgbC t img ColorSpaceE.rgb).2.1 ≤ 255
    ∧ (∃ k : ℤ,
        (getAverageColor labC rgbC t img ColorSpaceE.rgb).2.2 = (k : ℚ))
    ∧ 0 ≤ (getAverageColor labC rgbC t img ColorSpaceE.rgb).2.2
    ∧ (getAverageColor labC rgbC t img ColorSpaceE.rgb).2.2 ≤ 255 := by
  have hbyte : ∀ i : ℕ, (0 : ℚ) ≤ (img.data i : ℚ) ∧ (img.data i : ℚ) ≤ 255 :=
    fun i => ⟨by positivity, by exact_mod_cast hd i⟩
  unfold getAverageColor
  by_cases hc : (avgPixels t img).length = 0
  · rw [if_pos hc]
    dsimp only
    refine ⟨⟨(img.data _ : ℤ), by push_cast; rfl⟩, (hbyte _).1, (hbyte _).2,
      ⟨(img.data _ : ℤ), by push_cast; rfl⟩, (hbyte _).1, (hbyte _).2,
      ⟨(img.data _ : ℤ), by push_cast; rfl⟩, (hbyte _).1, (hbyte _).2⟩
  · rw [if_neg hc]
    dsimp only
    have hcount : (0 : ℚ) < ((avgPixels t img).length : ℚ) := by
      have : 0 < (avgPixels t img).length := Nat.pos_of_ne_zero hc
      exact_mod_cast this
    have hchan : ∀ f : ℚ × ℚ × ℚ → ℚ, (∀ p : ℤ × ℤ,
          0 ≤ f (((pixelRGB img p.1 p.2).1 : ℚ),
            ((pixelRGB img p.1 p.2).2.1 : ℚ),
            ((pixelRGB img p.1 p.2).2.2 : ℚ))
          ∧ f (((pixelRGB img p.1 p.2).1 : ℚ),
            ((pixelRGB img p.1 p.2).2.1 : ℚ),
            ((pixelRGB img p.1 p.2).2.2 : ℚ)) ≤ 255) →
        (0 : ℚ) ≤ jsRound ((((avgPixels t img).map fun p =>
            let c := pixelRGB img p.1 p.2
            ((c.1 : ℚ), (c.2.1 : ℚ), (c.2.2 : ℚ))).map f).sum
          / ((avgPixels t img).length : ℚ))
        ∧ (jsRound ((((avgPixels t img).map fun p =>
            let c := pixelRGB img p.1 p.2
            ((c.1 : ℚ), (c.2.1 : ℚ), (c.2.2 : ℚ))).map f).sum
          / ((avgPixels t img).length : ℚ)) : ℚ) ≤ 255 := by
      intro f hf
      set vals := (avgPixels t img).map fun p =>
        let c := pixelRGB img p.1 p.2
        ((c.1 : ℚ), (c.2.1 : ℚ), (c.2.2 : ℚ)) with hvals
      have hall : ∀ x ∈ vals.map f, 0 ≤ x ∧ x ≤ 255 := by
        intro x hx
        rcases List.mem_map.mp hx with ⟨v, hv, hfx⟩
        rcases List.mem_map.mp hv with ⟨p, _hp, hvp⟩
        subst hfx
        subst hvp
        exact hf p
      have hsum := sum_bounds _ hall
      have hlen : ((vals.map f).length : ℚ) = ((avgPixels t img).length : ℚ) := by
        simp [hvals]
      have havg0 : 0 ≤ (vals.map f).sum / ((avgPixels t img).length : ℚ) :=
        div_nonneg hsum.1 (le_of_lt hcount)
      have havg255 : (vals.map f).sum / ((avgPixels t img).length : ℚ)
          ≤ 255 := by
        rw [div_le_iff₀ hcount]
        calc (vals.map f).sum ≤ 255 * ((vals.map f).length : ℚ) := hsum.2
          _ = 255 * ((avgPixels t img).length : ℚ) := by rw [hlen]
      constructor
      · exact_mod_cast jsRound_nonneg havg0
      · exact_mod_cast jsRound_le_of_le
          (by push_cast; linarith : (vals.map f).sum
            / ((avgPixels t img).length : ℚ) ≤ ((255 : ℤ) : ℚ))
    have h1 := hchan (fun v => v.1) fun p => hbyte _
    have h2 := hchan (fun v => v.2.1) fun p => hbyte _
    have h3 := hchan (fun v => v.2.2) fun p => hbyte _
    exact ⟨⟨_, rfl⟩, h1.1, h1.2, ⟨_, rfl⟩, h2.1, h2.2, ⟨_, rfl⟩, h3.1, h3.2⟩

/-- C2 counterexample: with the LAB color space the averaged perceptual
triple is converted back and rounded to the nearest integer, but NOT
clamped (line 365 of the source applies Math.round only).  For a 4 x 4
image of saturated red and blue pixels whose lab average is out of the
sRGB gamut, the unclamped d3 conversion returns a negative green channel
and the output triangle has avg_color (149, -58, 132): -58 is not in
[0, 255], refuting the claim that every channel is in [0, 255] and that
the lab path clamps. -/
theorem generate_lab_not_clamped :
    (generateEmbed redBlueResample oneTriPolys twoTriNbr zeroF zeroF zeroF
        0 labOfRgbCx rgbOfLabCx 4 4 "input.png" settingsLab0 (fun _ => 0)
        0).map (fun o => o.triangles.map fun tr => tr.avg_color)
      = some [(149, -58, 132)]
    ∧ ¬ ((0 : ℚ) ≤ -58) := by decide

/-- C2 (amended): in the RGB color space every avg_color channel of every
LowPolyResult triangle is an integer in [0, 255] (both on the averaging
path, where channel sums of byte values are divided by the pixel count
and rounded, and on the zero-count center-pixel fallback).  In the LAB
color space the converted average is rounded to the nearest integer but
NOT clamped, so out-of-gamut averages can leave [0, 255] (see the
counterexample). -/
theorem generate_rgb_color_range (resampleC : ℤ → ℤ → PixelBuffer)
    (delaunayPolysC : List (ℚ × ℚ) → List Tri)
    (delaunayNbrC : List (ℚ × ℚ) → ℕ → List ℕ)
    (sqrtF cosF sinF : ℚ → ℚ) (piQ : ℚ)
    (labC : ℕ × ℕ × ℕ → ℚ × ℚ × ℚ) (rgbC : ℚ × ℚ × ℚ → ℚ × ℚ × ℚ)
    (imageW imageH : ℕ) (srcName : String) (s : SettingsE)
    (rand : ℕ → ℚ) (fuel : ℕ)
    (hdata : ∀ a b i, (resampleC a b).data i ≤ 255)
    (hcs : s.colorSpace = ColorSpaceE.rgb) :
    ∀ out, generateEmbed resampleC delaunayPolysC delaunayNbrC sqrtF cosF
        sinF piQ labC rgbC imageW imageH srcName s rand fuel = some out →
      ∀ tr ∈ out.triangles,
        (∃ k : ℤ, tr.avg_color.1 = (k : ℚ))
        ∧ 0 ≤ tr.avg_color.1 ∧ tr.avg_color.1 ≤ 255
        ∧ (∃ k : ℤ, tr.avg_color.2.1 = (k : ℚ))
        ∧ 0 ≤ tr.avg_color.2.1 ∧ tr.avg_color.2.1 ≤ 255
        ∧ (∃ k : ℤ, tr.avg_color.2.2 = (k : ℚ))
        ∧ 0 ≤ tr.avg_color.2.2 ∧ tr.avg_color.2.2 ≤ 255 := by
  intro out hout tr htr
  unfold generateEmbed at hout
  rcases Option.map_eq_some'.mp hout with ⟨pts0, _hpts, hf⟩
  subst hf
  dsimp only at htr ⊢
  have hmain : ∀ tr0 ∈ (buildLoop labC rgbC
      (resampleC (scaledDims imageW imageH s.maxSize).1
        (scaledDims imageW imageH s.maxSize).2) s.colorSpace
      ((scaledDims imageW imageH s.maxSize).1 : ℚ)
      ((scaledDims imageW imageH s.maxSize).2 : ℚ)
      (delaunayPolysC (addBorderPoints pts0
        ((scaledDims imageW imageH s.maxSize).1 : ℚ)
        ((scaledDims imageW imageH s.maxSize).2 : ℚ))) 0 1).1,
      (∃ k : ℤ, tr0.avg_color.1 = (k : ℚ))
      ∧ 0 ≤ tr0.avg_color.1 ∧ tr0.avg_color.1 ≤ 255
      ∧ (∃ k : ℤ, tr0.avg_color.2.1 = (k : ℚ))
      ∧ 0 ≤ tr0.avg_color.2.1 ∧ tr0.avg_color.2.1 ≤ 255
      ∧ (∃ k : ℤ, tr0.avg_color.2.2 = (k : ℚ))
      ∧ 0 ≤ tr0.avg_color.2.2 ∧ tr0.avg_color.2.2 ≤ 255 := by
    intro tr0 htr0
    have hb := buildLoop_mem _ _ _ _ _ _ _ 0 1 tr0 htr0
    rw [hb.2.2.1, hcs]
    exact getAverageColor_rgb labC rgbC tr0.vertices _ fun i => hdata _ _ i
  cases hws : s.withNeighbors with
  | false =>
      rw [hws, if_neg Bool.false_ne_true] at htr
      exact hmain tr htr
  | true =>
      rw [hws, if_pos rfl] at htr
      obtain ⟨tr0, htr0, _hid, _hvert, hcol⟩ :=
        addNeighbors_fields _ _ _ tr htr
      rw [hcol]
      exact hmain tr0 htr0

/-- C2 witness: the RGB range statement applied to the concrete
two-triangle run on the solid red image (every channel there is 255 or
0). -/
theorem generate_rgb_color_range_witness :
    (generateEmbed redResample twoTriPolys twoTriNbr zeroF zeroF zeroF 0
        (fun _ => (0, 0, 0)) (fun _ => (0, 0, 0)) 4 4 "input.png"
        settingsGrid0 (fun _ => 0) 0).elim False
      (fun o => ∀ tr ∈ o.triangles,
        (∃ k : ℤ, tr.avg_color.1 = (k : ℚ))
        ∧ 0 ≤ tr.avg_color.1 ∧ tr.avg_color.1 ≤ 255
        ∧ (∃ k : ℤ, tr.avg_color.2.1 = (k : ℚ))
        ∧ 0 ≤ tr.avg_color.2.1 ∧ tr.avg_color.2.1 ≤ 255
        ∧ (∃ k : ℤ, tr.avg_color.2.2 = (k : ℚ))
        ∧ 0 ≤ tr.avg_color.2.2 ∧ tr.avg_color.2.2 ≤ 255) := by
  cases hg : generateEmbed redResample twoTriPolys twoTriNbr zeroF zeroF
      zeroF 0 (fun _ => (0, 0, 0)) (fun _ => (0, 0, 0)) 4 4 "input.png"
      settingsGrid0 (fun _ => 0) 0 with
  | none =>
      have hsome : (generateEmbed redResample twoTriPolys twoTriNbr zeroF
          zeroF zeroF 0 (fun _ => (0, 0, 0)) (fun _ => (0, 0, 0)) 4 4
          "input.png" settingsGrid0 (fun _ => 0) 0).isSome = true := by
        decide
      rw [hg] at hsome
      simp at hsome
  | some o =>
      simp only [Option.elim]
      exact generate_rgb_color_range redResample twoTriPolys twoTriNbr
        zeroF zeroF zeroF 0 (fun _ => (0, 0, 0)) (fun _ => (0, 0, 0)) 4 4
        "input.png" settingsGrid0 (fun _ => 0) 0
        (fun a b i => by
          show (if i % 4 = 0 ∨ i % 4 = 3 then 255 else 0) ≤ 255
          split_ifs <;> omega)
        rfl o hg

theorem sampleEdgeAwareGo_ints (w h : ℕ) (n : ℤ) (em : ℕ → ℕ) (ew : ℚ)
    (rand : ℕ → ℚ) (hr : ∀ k, 0 ≤ rand k ∧ rand k < 1)
    (hw : 1 ≤ w) (hh : 1 ≤ h) :
    ∀ fuel rc acc,
      (∀ p ∈ acc, ∃ a b : ℤ, p = ((a : ℚ), (b : ℚ))
        ∧ 0 ≤ a ∧ a ≤ (w : ℤ) - 1 ∧ 0 ≤ b ∧ b ≤ (h : ℤ) - 1) →
      ∀ p ∈ sampleEdgeAwareGo w h n em ew rand fuel rc acc,
        ∃ a b : ℤ, p = ((a : ℚ), (b : ℚ))
        ∧ 0 ≤ a ∧ a ≤ (w : ℤ) - 1 ∧ 0 ≤ b ∧ b ≤ (h : ℤ) - 1 := by
  have hcoord : ∀ (k : ℕ) (d : ℕ), 1 ≤ d →
      0 ≤ ⌊rand k * (d : ℚ)⌋ ∧ ⌊rand k * (d : ℚ)⌋ ≤ (d : ℤ) - 1 := by
    intro k d hd
    have hdq : (0 : ℚ) < (d : ℚ) := by exact_mod_cast hd
    constructor
    · exact Int.floor_nonneg.2 (mul_nonneg (hr k).1 (le_of_lt hdq))
    · have : rand k * (d : ℚ) < (d : ℚ) := by
        calc rand k * (d : ℚ) < 1 * (d : ℚ) :=
              mul_lt_mul_of_pos_right (hr k).2 hdq
          _ = (d : ℚ) := one_mul _
      have := Int.floor_lt.2 (by exact_mod_cast this :
        rand k * (d : ℚ) < ((d : ℤ) : ℚ))
      omega
  intro fuel
  induction fuel with
  | zero =>
      intro rc acc hacc p hp
      simp only [sampleEdgeAwareGo] at hp
      exact hacc p (List.mem_reverse.mp hp)
  | succ f ih =>
      intro rc acc hacc p hp
      simp only [sampleEdgeAwareGo] at hp
      split at hp
      · split at hp
        · refine ih (rc + 3) _ ?_ p hp
          intro q hq
          rcases List.mem_cons.mp hq with he | hm
          · subst he
            exact ⟨⌊rand rc * (w : ℚ)⌋, ⌊rand (rc + 1) * (h : ℚ)⌋, rfl,
              (hcoord rc w hw).1, (hcoord rc w hw).2,
              (hcoord (rc + 1) h hh).1, (hcoord (rc + 1) h hh).2⟩
          · exact hacc q hm
        · exact ih (rc + 3) acc hacc p hp
      · exact hacc p (List.mem_reverse.mp hp)

/-- C10: every point produced by the edge-aware sampler has integer
coordinates with 0 <= x <= width - 1 and 0 <= y <= height - 1 (strictly
inside the right and bottom borders), for every edge map, edge weight,
positive integer dimensions and random stream with values in [0, 1);
this is because x and y are drawn as floor(random() * dimension), unlike
the grid and Poisson samplers whose points keep fractional coordinates in
the full closed rectangle. -/
theorem sampleEdgeAware_integer_coords (w h : ℕ) (n : ℤ) (em : ℕ → ℕ)
    (ew : ℚ) (rand : ℕ → ℚ) (hr : ∀ k, 0 ≤ rand k ∧ rand k < 1)
    (hw : 1 ≤ w) (hh : 1 ≤ h) :
    ∀ p ∈ sampleEdgeAware w h n em ew rand,
      ∃ a b : ℤ, p = ((a : ℚ), (b : ℚ))
      ∧ 0 ≤ a ∧ a ≤ (w : ℤ) - 1 ∧ 0 ≤ b ∧ b ≤ (h : ℤ) - 1 :=
  sampleEdgeAwareGo_ints w h n em ew rand hr hw hh (10 * n).toNat 0 []
    (fun p hp => absurd hp (List.not_mem_nil p))

/-- C10 witness: on a 2 x 2 zero edge map with edge weight 0 and the
constant random stream 1/2, the sampler accepts exactly the point (1, 1),
which has integer coordinates in [0, 1] x [0, 1]. -/
theorem sampleEdgeAware_integer_coords_witness :
    ∃ a b : ℤ, ((1 : ℚ), (1 : ℚ)) = ((a : ℚ), (b : ℚ))
    ∧ 0 ≤ a ∧ a ≤ (2 : ℤ) - 1 ∧ 0 ≤ b ∧ b ≤ (2 : ℤ) - 1 :=
  sampleEdgeAware_integer_coords 2 2 1 (fun _ => 0) 0 (fun _ => 1 / 2)
    (fun _ => by norm_num) (by norm_num) (by norm_num)
    ((1 : ℚ), (1 : ℚ)) (by decide)

/-- C4 counterexample: with width 884279719003555, height 1 and
targetCount 281474976710656 the ratio width * height / (n * Math.PI) is
exactly 1, so r = 1.5 and the cell size r / sqrt 2 exceeds the height;
rows = floor(height / cellSize) = 0, hence the 5x5 separation scan never
finds a cell inside [0, rows) x [0, cols) and every in-bounds candidate
is accepted.  The run driven by the concrete deterministic random stream
c4rand terminates and returns the three collinear points (0, 0),
(1.5, 0), (2.9, 0); the last two are distinct yet their squared distance
1.96 is below r^2 = 2.25, refuting the guaranteed minimum pairwise
separation r. -/
theorem samplePoisson_claim_false :
    samplePoisson c4sqrt c4cos c4sin piJS c4W 1 c4N c4rand 10
      = some [(0, 0), (3 / 2, 0), (29 / 10, 0)]
    ∧ ((3 / 2 : ℚ), (0 : ℚ)) ≠ ((29 / 10 : ℚ), (0 : ℚ))
    ∧ ((29 / 10 - 3 / 2) ^ 2 + ((0 : ℚ) - 0) ^ 2 : ℚ) < c4r ^ 2
    ∧ c4r = 3 / 2 := by decide

theorem poissonAttempts_grid_inv (sqrtF cosF sinF : ℚ → ℚ)
    (piQ w h r cw : ℚ) (cols rows : ℤ) (rand : ℕ → ℚ) (pos : ℚ × ℚ) :
    ∀ (j : ℕ) (st : PoissonState),
      (∀ i p, st.grid i = some p → 0 ≤ p.1 ∧ p.1 < w ∧ 0 ≤ p.2 ∧ p.2 < h) →
      ∀ i p, (poissonAttempts sqrtF cosF sinF piQ w h r cw cols rows rand
          pos j st).1.grid i = some p →
        0 ≤ p.1 ∧ p.1 < w ∧ 0 ≤ p.2 ∧ p.2 < h := by
  intro j
  induction j with
  | zero =>
      intro st hst i p hp
      simp only [poissonAttempts] at hp
      exact hst i p hp
  | succ jj ih =>
      intro st hst i p hp
      simp only [poissonAttempts] at hp
      split at hp
      · refine ih _ ?_ i p hp
        intro i2 p2 h2
        exact hst i2 p2 h2
      · next hb =>
          push_neg at hb
          split at hp
          · dsimp only at hp
            split at hp
            · next =>
                cases Option.some.inj hp
                exact ⟨hb.1, hb.2.1, hb.2.2.1, hb.2.2.2⟩
            · exact hst i p hp
          · refine ih _ ?_ i p hp
            intro i2 p2 h2
            exact hst i2 p2 h2

set_option maxHeartbeats 2000000 in
theorem poissonLoop_grid_inv (sqrtF cosF sinF : ℚ → ℚ) (piQ w h r cw : ℚ)
    (cols rows : ℤ) (rand : ℕ → ℚ) :
    ∀ (fuel : ℕ) (st : PoissonState),
      (∀ i p, st.grid i = some p → 0 ≤ p.1 ∧ p.1 < w ∧ 0 ≤ p.2 ∧ p.2 < h) →
      ∀ st2, poissonLoop sqrtF cosF sinF piQ w h r cw cols rows rand fuel st
          = some st2 →
      ∀ i p, st2.grid i = some p →
        0 ≤ p.1 ∧ p.1 < w ∧ 0 ≤ p.2 ∧ p.2 < h := by
  intro fuel
  induction fuel with
  | zero =>
      intro st hst st2 h2 i p hp
      simp only [poissonLoop] at h2
      split at h2
      · cases Option.some.inj h2
        exact hst i p hp
      · exact absurd h2 (by simp)
  | succ f ih =>
      intro st hst st2 h2 i p hp
      simp only [poissonLoop] at h2
      split at h2
      · cases Option.some.inj h2
        exact hst i p hp
      · split at h2
        · refine ih _ ?_ st2 h2 i p hp
          intro i2 p2 hq
          refine poissonAttempts_grid_inv sqrtF cosF sinF piQ w h r cw
            cols rows rand _ 30 _ ?_ i2 p2 hq
          intro i3 p3 hq3
          exact hst i3 p3 hq3
        · refine ih _ ?_ st2 h2 i p hp
          intro i2 p2 hq
          refine poissonAttempts_grid_inv sqrtF cosF sinF piQ w h r cw
            cols rows rand _ 30 _ ?_ i2 p2 hq
          intro i3 p3 hq3
          exact hst i3 p3 hq3

/-- C4 (amended): the sampler does not guarantee the minimum pairwise
separation r — the rejection test only consults grid cells inside
[0, rows) x [0, cols), so candidates whose neighbourhood falls outside
that range (for example whenever height < cellSize, making rows = 0, or
points in the partial cell column at index cols) are accepted without any
distance check, and two returned points can be closer than r (see the
counterexample).  What does hold for every input and random stream with
values in [0, 1): every returned point lies inside the image rectangle
[0, width) x [0, height). -/
theorem samplePoisson_in_bounds (sqrtF cosF sinF : ℚ → ℚ) (piQ w h : ℚ)
    (n : ℤ) (rand : ℕ → ℚ) (fuel : ℕ) (hw : 0 < w) (hh : 0 < h)
    (hr : ∀ k, 0 ≤ rand k ∧ rand k < 1) :
    ∀ pts, samplePoisson sqrtF cosF sinF piQ w h n rand fuel = some pts →
      ∀ p ∈ pts, 0 ≤ p.1 ∧ p.1 < w ∧ 0 ≤ p.2 ∧ p.2 < h := by
  intro pts hpts p hp
  unfold samplePoisson at hpts
  rcases Option.map_eq_some'.mp hpts with ⟨st2, hloop, hmap⟩
  subst hmap
  rcases List.mem_filterMap.mp hp with ⟨i, _hi, hgrid⟩
  refine poissonLoop_grid_inv sqrtF cosF sinF piQ w h _ _ _ _ rand fuel _
    ?_ st2 hloop (i : ℤ) p hgrid
  intro i2 p2 h2
  dsimp only at h2
  split at h2
  · cases Option.some.inj h2
    refine ⟨mul_nonneg (hr 0).1 (le_of_lt hw), ?_,
      mul_nonneg (hr 1).1 (le_of_lt hh), ?_⟩
    · calc rand 0 * w < 1 * w := mul_lt_mul_of_pos_right (hr 0).2 hw
        _ = w := one_mul w
    · calc rand 1 * h < 1 * h := mul_lt_mul_of_pos_right (hr 1).2 hh
        _ = h := one_mul h
  · exact absurd h2 (by simp)

/-- C4 witness: the in-bounds statement applied to the concrete
counterexample run, at its returned point (2.9, 0). -/
theorem samplePoisson_in_bounds_witness :
    (0 : ℚ) ≤ 29 / 10 ∧ (29 / 10 : ℚ) < c4W ∧ (0 : ℚ) ≤ 0
    ∧ (0 : ℚ) < 1 :=
  samplePoisson_in_bounds c4sqrt c4cos c4sin piJS c4W 1 c4N c4rand 10
    (by unfold c4W; norm_num) one_pos
    (fun k => by unfold c4rand; split_ifs <;> norm_num)
    [(0, 0), (3 / 2, 0), (29 / 10, 0)] (by decide)
    ((29 / 10 : ℚ), (0 : ℚ)) (by decide)
